import Mathlib

/-!
Verification of the `robo.py` detection gateway: a shallow embedding of the
`detect_image` request handler and its helper `allowed_file`, together with
proofs about the validation order, response normalization, per-class
aggregation, image persistence and the response payload.

Python values flowing through the handler are JSON-like (`dict`, `list`,
`str`, numbers, booleans, `None`); `None` is identified with JSON `null`.
Operations that can raise a Python exception are modelled with `Option` /
an explicit `raised` constructor, so that "never raises" is a provable
statement rather than a typing artifact.
-/

mutual

/-- JSON-like values as handled by the Python code.  Objects keep their
fields in insertion order, mirroring Python's ordered `dict`. -/
inductive JValue where
  | null
  | bool (b : Bool)
  | num (n : Int)
  | str (s : String)
  | arr (xs : JArr)
  | obj (fs : JObj)
deriving DecidableEq, Repr

/-- A JSON array (a Python `list`). -/
inductive JArr where
  | nil
  | cons (hd : JValue) (tl : JArr)
deriving DecidableEq, Repr

/-- A JSON object (a Python `dict` with string keys, insertion-ordered). -/
inductive JObj where
  | nil
  | cons (k : String) (v : JValue) (tl : JObj)
deriving DecidableEq, Repr

end

def JArr.toList : JArr → List JValue
  | JArr.nil => []
  | JArr.cons h t => h :: t.toList

def JArr.ofList : List JValue → JArr
  | [] => JArr.nil
  | h :: t => JArr.cons h (JArr.ofList t)

def JObj.ofList : List (String × JValue) → JObj
  | [] => JObj.nil
  | (k, v) :: t => JObj.cons k v (JObj.ofList t)

/-- Convenience constructor for array literals. -/
def jarr (xs : List JValue) : JValue := JValue.arr (JArr.ofList xs)

/-- Convenience constructor for object literals. -/
def jobj (fs : List (String × JValue)) : JValue := JValue.obj (JObj.ofList fs)

/-- Python `d.get(k)`: first value bound to key `k`, if any. -/
def jGet : JObj → String → Option JValue
  | JObj.nil, _ => none
  | JObj.cons k' v rest, k => if k' = k then some v else jGet rest k

/-- Python `d.get(k, default)`. -/
def jGetD (o : JObj) (k : String) (d : JValue) : JValue :=
  (jGet o k).getD d

/-- Python truthiness of a JSON-like value. -/
def truthy : JValue → Bool
  | JValue.null => false
  | JValue.bool b => b
  | JValue.num n => n != 0
  | JValue.str s => s ≠ ""
  | JValue.arr JArr.nil => false
  | JValue.arr (JArr.cons _ _) => true
  | JValue.obj JObj.nil => false
  | JValue.obj (JObj.cons _ _ _) => true

/-- Python `isinstance(v, list)`. -/
def JValue.isArr : JValue → Bool
  | JValue.arr _ => true
  | _ => false

/-! ## Python string primitives

The handful of `str` methods the handler uses (`lower`, `strip`,
`rsplit(".", 1)`, `sorted`) are given explicit character-list
implementations, so that every definition evaluates by kernel reduction.
These are the ASCII behaviours, which is all the handler's inputs
(extensions, query flags, base64 text) exercise. -/

/-- Python `s.lower()`. -/
def pyLower (s : String) : String := String.mk (s.toList.map Char.toLower)

/-- Python `s.strip()`: drop whitespace from both ends. -/
def pyStrip (s : String) : String :=
  String.mk
    (((s.toList.dropWhile Char.isWhitespace).reverse.dropWhile
        Char.isWhitespace).reverse)

/-- The suffix of `l` after the last occurrence of `c`
(`text.rsplit(c, 1)[1]` when `c` occurs in `text`). -/
def afterLast (c : Char) (l : List Char) : List Char :=
  (l.reverse.takeWhile (fun a => a ≠ c)).reverse

/-- Code-point comparison of two character lists, Python's `<=` on `str`. -/
def lexLe : List Char → List Char → Bool
  | [], _ => true
  | _ :: _, [] => false
  | a :: as, b :: bs =>
      if a.toNat = b.toNat then lexLe as bs else decide (a.toNat < b.toNat)

/-- Python's `<=` on strings (lexicographic by code point). -/
def strLe (a b : String) : Prop := lexLe a.toList b.toList = true

instance : DecidableRel strLe := fun a b => by
  unfold strLe
  infer_instance

/-! ## Upload validation (robo.py lines 43-45) -/

/-- The allow-list `ALLOWED_EXTENSIONS = {"png", "jpg", "jpeg"}`. -/
def ALLOWED_EXTENSIONS : List String := ["png", "jpg", "jpeg"]

/-- Validation helper `allowed_file`: `"." in filename and filename.rsplit(".", 1)[1].lower()
in ALLOWED_EXTENSIONS`.  `rsplit(".", 1)[1]` is the text after the last
dot. -/
def allowed_file (filename : String) : Bool :=
  filename.toList.contains '.' &&
    ALLOWED_EXTENSIONS.any
      (fun e => e = pyLower (String.mk (afterLast '.' filename.toList)))

/-! ## Response normalization (robo.py lines 132-155) -/

/-- Outcome of the response-parsing prologue.  `raised` models a Python
exception escaping these lines (it would be caught by the handler's outer
`except`, producing a 500). -/
inductive NormResult where
  | malformed
  | raised
  | ok (img : JValue) (preds : JValue)
deriving DecidableEq, Repr

/-- Lines 141-146: `processed_image_base64` starts as `None`; a `dict`
image field contributes its `"value"` entry as-is, a non-blank string is
stripped, anything else leaves `None`. -/
def outputImage (ffs : JObj) : JValue :=
  match jGet ffs "output_image" with
  | some (JValue.obj ofs) => jGetD ofs "value" JValue.null
  | some (JValue.str s) =>
      if pyStrip s ≠ "" then JValue.str (pyStrip s) else JValue.null
  | _ => JValue.null

/-- Lines 149-155: `predictions_block = first_output.get("predictions", {})`;
a `dict` block contributes `block.get("predictions", []) or []`, a `list`
block is taken as-is, anything else becomes `[]`. -/
def predictionsOf (ffs : JObj) : JValue :=
  match jGetD ffs "predictions" (jobj []) with
  | JValue.obj pfs =>
      let v := jGetD pfs "predictions" (jarr [])
      if truthy v then v else jarr []
  | JValue.arr xs => JValue.arr xs
  | _ => jarr []

/-- Lines 134-155: `outputs = rf_result.get("outputs", [])`; `if not
outputs or not isinstance(outputs, list)` report the malformed-response
error; otherwise read the first output.  `first_output.get(...)` raises
(`AttributeError`) when the first output is not a `dict`. -/
def normalizeResponse (rf : JObj) : NormResult :=
  let outputs := jGetD rf "outputs" (jarr [])
  if !truthy outputs || !outputs.isArr then NormResult.malformed
  else
    match outputs with
    | JValue.arr (JArr.cons (JValue.obj ffs) _) =>
        NormResult.ok (outputImage ffs) (predictionsOf ffs)
    | JValue.arr (JArr.cons _ _) => NormResult.raised
    | _ => NormResult.malformed

/-! ## Aggregation (robo.py lines 157-166) -/

/-- Python `for obj in predictions`: iterating a `list` yields its items, a `str`
its characters, a `dict` its keys; iterating `None`, a bool or a number
raises `TypeError` (modelled as `none`). -/
def pyIterate : JValue → Option (List JValue)
  | JValue.arr xs => some xs.toList
  | JValue.str s => some (s.toList.map (fun c => JValue.str (String.singleton c)))
  | JValue.obj fs =>
      some (go fs)
  | _ => none
where
  go : JObj → List JValue
  | JObj.nil => []
  | JObj.cons k _ rest => JValue.str k :: go rest

/-- The dict key `obj.get("class", "Unknown")` a record is tallied under. -/
def classKey (fs : JObj) : JValue := jGetD fs "class" (JValue.str "Unknown")

/-- One update `class_counts[cls] = class_counts.get(cls, 0) + 1` on an
insertion-ordered association list. -/
def bump (m : List (JValue × Nat)) (k : JValue) : List (JValue × Nat) :=
  match m with
  | [] => [(k, 1)]
  | (k', n) :: rest => if k' = k then (k', n + 1) :: rest else (k', n) :: bump rest k

/-- Lines 158-162: the tallying loop, `for obj in predictions: if
isinstance(obj, dict): ... bump ...`, starting from the accumulator `m`;
non-`dict` records are skipped by the `isinstance` guard. -/
def tally : List (JValue × Nat) → List JValue → List (JValue × Nat)
  | m, [] => m
  | m, JValue.obj fs :: rest => tally (bump m (classKey fs)) rest
  | m, _ :: rest => tally m rest

/-- The `class_counts` dict built from an empty accumulator. -/
def classCounts (objs : List JValue) : List (JValue × Nat) := tally [] objs

/-- The sum `sum(class_counts.values())` (line 166, `total_ingredients`). -/
def sumCounts : List (JValue × Nat) → Nat
  | [] => 0
  | (_, n) :: rest => n + sumCounts rest

/-- Python `class_counts.get(k, 0)`. -/
def lookupCount (m : List (JValue × Nat)) (k : JValue) : Nat :=
  match m with
  | [] => 0
  | (k', n) :: rest => if k' = k then n else lookupCount rest k

/-- Whether a tally entry's key is a string (a genuine class label). -/
def isStrKey (kv : JValue × Nat) : Bool :=
  match kv.1 with
  | JValue.str _ => true
  | _ => false

/-- The string under a string key. -/
def keyStr : JValue → String
  | JValue.str s => s
  | _ => ""

/-- Line 164, `sorted(list(class_counts.keys()))`.  Python's `sorted`
succeeds on class labels exactly when the keys are mutually comparable;
the response contract is about string labels, so the embedding returns
the sorted labels when every key is a string and models any other key mix
as a raise (`none`). -/
def detectedIngredients (m : List (JValue × Nat)) : Option (List String) :=
  if m.all isStrKey then
    some (List.insertionSort strLe (m.map (fun kv => keyStr kv.1)))
  else none

/-! ## Legacy `result` field (robo.py lines 187-192) -/

/-- The dual-shape compatibility field: a plain string, or the structured
object `(ingredients, details)`. -/
inductive LegacyResult where
  | str (s : String)
  | obj (ingredients : Nat) (details : List (JValue × Nat))
deriving DecidableEq, Repr

/-- f-string rendering of a dict key (only string keys arise under the
response contract; scalar renderings follow Python, container renderings
are placeholders no claim depends on). -/
def pyStr : JValue → String
  | JValue.null => "None"
  | JValue.bool b => cond b "True" "False"
  | JValue.num n => toString n
  | JValue.str s => s
  | JValue.arr _ => "<list>"
  | JValue.obj _ => "<dict>"

/-- Lines 188-192: `if len(class_counts) == 1` format `"{count} {class}"`
from the only entry, else build the structured object from
`total_ingredients` and `details`. -/
def legacyResult (m : List (JValue × Nat)) : LegacyResult :=
  match m with
  | [(k, n)] => LegacyResult.str (toString n ++ " " ++ pyStr k)
  | _ => LegacyResult.obj (sumCounts m) m

/-! ## Image persistence (robo.py lines 168-181) -/

/-- Raw file content. -/
abbrev Bytes := List Nat

/-- Lines 170-179, choice of bytes to write: `if processed_image_base64
and processed_image_base64.strip():` try to base64-decode it, falling back
to the original upload bytes when decoding raises; a falsy value skips
straight to the original bytes.  `none` models the `.strip()` attribute
access raising on a truthy non-string. -/
def toWrite (img : JValue) (decode : String → Option Bytes) (orig : Bytes) :
    Option Bytes :=
  match img with
  | JValue.str s =>
      if pyStrip s ≠ "" then some ((decode s).getD orig) else some orig
  | x => if truthy x then none else some orig

/-- Outcome of the persistence step (lines 170-181). -/
inductive PersistOutcome where
  | raised
  | writeError
  | wrote (b : Bytes)
deriving DecidableEq, Repr

/-- Lines 170-181: pick the bytes, then `open(...).write(...)`; a failing
write is reported (500), a successful one persists the chosen bytes. -/
def persistStep (img : JValue) (decode : String → Option Bytes) (orig : Bytes)
    (writeOk : Bool) : PersistOutcome :=
  match toWrite img decode orig with
  | none => PersistOutcome.raised
  | some b => if writeOk then PersistOutcome.wrote b else PersistOutcome.writeError

/-! ## The request handler (robo.py lines 66-207) -/

/-- Server configuration: `ROBOFLOW_API_KEY` (`none` models the variable
being absent / `None`). -/
structure Config where
  apiKey : Option String
deriving DecidableEq

/-- The check `ROBOFLOW_API_KEY in (None, "", "REPLACE_ME")` (lines 54 and 71). -/
def keyMissing (cfg : Config) : Bool :=
  match cfg.apiKey with
  | none => true
  | some s => s = "" || s = "REPLACE_ME"

/-- The parts of an incoming `POST /api/detect` request the handler
inspects. -/
structure DetectRequest where
  hasImageFile : Bool
  filename : String
  includeB64Param : Option String
  fileBytes : Bytes
deriving DecidableEq

/-- Line 81: `request.args.get("include_base64", "true").lower() != "false"`. -/
def includeB64 (req : DetectRequest) : Bool :=
  pyLower (req.includeB64Param.getD "true") != "false"

/-- Environment oracle for one request: outcomes of the I/O the handler
performs.  `upstream = none` models `run_workflow` raising; `decode s =
none` models `base64.b64decode(s)` raising. -/
structure World where
  readOk : Bool
  tempWriteOk : Bool
  upstream : Option JObj
  decode : String → Option Bytes
  processedWriteOk : Bool

/-- Which error body a response carries. -/
inductive ErrKind where
  | noImageFile
  | misconfigured
  | emptyFilename
  | unsupportedFormat
  | readFailed
  | tempWriteFailed
  | sdkError
  | outputsMissing
  | processingError
  | processedWriteFailed
deriving DecidableEq, Repr

/-- Observable outcome of one handler run: the HTTP response plus the
side-effect trace the claims talk about. -/
structure HResponse where
  status : Nat
  error : Option ErrKind
  calledUpstream : Bool
  tempCreated : Bool
  tempRemoved : Bool
  processedWritten : Option Bytes
  detected : List String
  ingredients : Nat
  details : List (JValue × Nat)
  result : LegacyResult
  b64Field : Option JValue
deriving DecidableEq

/-- An error response together with the effect trace accumulated so far. -/
def errResponse (status : Nat) (e : ErrKind) (calledUp tempC tempR : Bool) :
    HResponse :=
  { status := status, error := some e, calledUpstream := calledUp,
    tempCreated := tempC, tempRemoved := tempR, processedWritten := none,
    detected := [], ingredients := 0, details := [],
    result := LegacyResult.obj 0 [], b64Field := none }

/-- Lines 131-207: parse the upstream response, aggregate, persist the
image, and build the 200 payload.  Any exception inside this region is
caught by the outer `except` (line 206) and reported as a 500; the temp
upload file was already removed by the `finally` (line 124). -/
def parseStage (req : DetectRequest) (w : World) (rf : JObj) : HResponse :=
  match normalizeResponse rf with
  | NormResult.malformed => errResponse 502 ErrKind.outputsMissing true true true
  | NormResult.raised => errResponse 500 ErrKind.processingError true true true
  | NormResult.ok img preds =>
      match pyIterate preds with
      | none => errResponse 500 ErrKind.processingError true true true
      | some objs =>
          match detectedIngredients (classCounts objs) with
          | none => errResponse 500 ErrKind.processingError true true true
          | some det =>
              match toWrite img w.decode req.fileBytes with
              | none => errResponse 500 ErrKind.processingError true true true
              | some b =>
                  if !w.processedWriteOk then
                    errResponse 500 ErrKind.processedWriteFailed true true true
                  else
                    { status := 200, error := none, calledUpstream := true,
                      tempCreated := true, tempRemoved := true,
                      processedWritten := some b, detected := det,
                      ingredients := sumCounts (classCounts objs),
                      details := classCounts objs,
                      result := legacyResult (classCounts objs),
                      b64Field := if includeB64 req then some img else none }

/-- Lines 66-207, `detect_image`: validations in source order, the read
and temp-file write, the SDK call guarded by `try/except/finally` (the
`finally` removes the temp upload file on every exit path), then the
parse stage. -/
def detect_image (cfg : Config) (req : DetectRequest) (w : World) : HResponse :=
  if !req.hasImageFile then errResponse 400 ErrKind.noImageFile false false false
  else if keyMissing cfg then errResponse 500 ErrKind.misconfigured false false false
  else if req.filename = "" then errResponse 400 ErrKind.emptyFilename false false false
  else if !allowed_file req.filename then
    errResponse 400 ErrKind.unsupportedFormat false false false
  else if !w.readOk then errResponse 500 ErrKind.readFailed false false false
  else if !w.tempWriteOk then errResponse 500 ErrKind.tempWriteFailed false false false
  else
    match w.upstream with
    | none => errResponse 502 ErrKind.sdkError true true true
    | some rf => parseStage req w rf

/-! ## Spec-side comparison definitions -/

/-- Spec's characterization of the malformed-response condition: the
top-level `outputs` field is absent, not a list, or an empty list. -/
def spec_outputsBad (rf : JObj) : Bool :=
  match jGet rf "outputs" with
  | none => true
  | some (JValue.arr JArr.nil) => true
  | some (JValue.arr (JArr.cons _ _)) => false
  | some _ => true

/-- Spec's aggregation bound: the number of prediction records that have a
defined `class` field. -/
def spec_numDefinedClass (objs : List JValue) : Nat :=
  objs.countP (fun j =>
    match j with
    | JValue.obj fs => (jGet fs "class").isSome
    | _ => false)

/-- A prediction record that passes the `isinstance(obj, dict)` guard. -/
def isObjRecord : JValue → Bool
  | JValue.obj _ => true
  | _ => false

/-- The claim's documented variants for the first output's image field:
an object with a `value` string, a bare string, or absent. -/
def imgVariantOk (ffs : JObj) : Bool :=
  match jGet ffs "output_image" with
  | none => true
  | some (JValue.str _) => true
  | some (JValue.obj ofs) =>
      match jGet ofs "value" with
      | some (JValue.str _) => true
      | _ => false
  | some _ => false

/-- The claim's documented variants for the first output's predictions
field: an object containing a `predictions` list, a bare list, or
absent / other-typed. -/
def predVariantOk (ffs : JObj) : Bool :=
  match jGet ffs "predictions" with
  | none => true
  | some (JValue.obj pfs) =>
      match jGet pfs "predictions" with
      | some (JValue.arr _) => true
      | _ => false
  | some (JValue.arr _) => true
  | some _ => true

/-- The claim's documented upstream shapes: either the `outputs` field is
already bad, or there is a first output which is an object whose image and
predictions fields are among the documented variants. -/
def documentedShape (rf : JObj) : Bool :=
  spec_outputsBad rf ||
    (match jGet rf "outputs" with
     | some (JValue.arr (JArr.cons (JValue.obj ffs) _)) =>
         imgVariantOk ffs && predVariantOk ffs
     | _ => false)

/-- Records tallied under the key `k`: `dict` records whose
`get("class", "Unknown")` equals `k`. -/
def keyMatches (k : JValue) : JValue → Bool
  | JValue.obj fs => classKey fs == k
  | _ => false

/-- The keys of an association list, in order. -/
def keysOf : List (JValue × Nat) → List JValue
  | [] => []
  | (k, _) :: rest => k :: keysOf rest

/-! # Lemmas about the tallying loop -/

theorem sumCounts_bump (m : List (JValue × Nat)) (k : JValue) :
    sumCounts (bump m k) = sumCounts m + 1 := by
  induction m with
  | nil => rfl
  | cons kv rest ih =>
      obtain ⟨k', n⟩ := kv
      by_cases h : k' = k <;> simp [bump, h, sumCounts, ih] <;> omega

theorem sumCounts_tally (objs : List JValue) :
    ∀ m, sumCounts (tally m objs) = sumCounts m + objs.countP isObjRecord := by
  induction objs with
  | nil => intro m; simp [tally]
  | cons j rest ih =>
      intro m
      cases j
      all_goals
        simp [tally, ih, List.countP_cons, isObjRecord, sumCounts_bump]
      omega

theorem lookupCount_bump_self (m : List (JValue × Nat)) (k : JValue) :
    lookupCount (bump m k) k = lookupCount m k + 1 := by
  induction m with
  | nil => simp [bump, lookupCount]
  | cons kv rest ih =>
      obtain ⟨k', n⟩ := kv
      by_cases h : k' = k <;> simp [bump, h, lookupCount, ih]

theorem lookupCount_bump_ne (m : List (JValue × Nat)) (k' k : JValue)
    (h : k' ≠ k) : lookupCount (bump m k') k = lookupCount m k := by
  have h2 : k ≠ k' := Ne.symm h
  induction m with
  | nil => simp [bump, lookupCount, h]
  | cons kv rest ih =>
      obtain ⟨a, n⟩ := kv
      by_cases ha : a = k' <;> by_cases hk : a = k
      · exact absurd (ha.symm.trans hk) h
      · subst ha; simp [bump, lookupCount, h, h2, ih]
      · subst hk; simp [bump, lookupCount, h, h2, ih]
      · simp [bump, ha, hk, lookupCount, ih]

theorem lookupCount_tally (objs : List JValue) (k : JValue) :
    ∀ m, lookupCount (tally m objs) k =
      lookupCount m k + objs.countP (keyMatches k) := by
  induction objs with
  | nil => intro m; simp [tally]
  | cons j rest ih =>
      intro m
      cases j
      case obj fs =>
        by_cases h : classKey fs = k
        · simp [tally, ih, List.countP_cons, keyMatches, h,
            lookupCount_bump_self]
          omega
        · simp [tally, ih, List.countP_cons, keyMatches, h,
            lookupCount_bump_ne _ _ _ h]
      all_goals simp [tally, ih, List.countP_cons, keyMatches]

theorem keysOf_bump_mem (m : List (JValue × Nat)) (k : JValue)
    (h : k ∈ keysOf m) : keysOf (bump m k) = keysOf m := by
  induction m with
  | nil => simp [keysOf] at h
  | cons kv rest ih =>
      obtain ⟨k', n⟩ := kv
      by_cases hk : k' = k
      · simp [bump, hk, keysOf]
      · have hr : k ∈ keysOf rest := by
          rcases List.mem_cons.mp h with h1 | h1
          · exact absurd h1.symm hk
          · exact h1
        simp [bump, hk, keysOf, ih hr]

theorem keysOf_bump_not_mem (m : List (JValue × Nat)) (k : JValue)
    (h : k ∉ keysOf m) : keysOf (bump m k) = keysOf m ++ [k] := by
  induction m with
  | nil => simp [bump, keysOf]
  | cons kv rest ih =>
      obtain ⟨k', n⟩ := kv
      have hk : k' ≠ k := by
        intro e
        exact h (by simp [keysOf, e])
      have hr : k ∉ keysOf rest := fun hm => h (by simp [keysOf, hm])
      simp [bump, hk, keysOf, ih hr]

theorem nodup_keysOf_bump (m : List (JValue × Nat)) (k : JValue)
    (h : (keysOf m).Nodup) : (keysOf (bump m k)).Nodup := by
  by_cases hk : k ∈ keysOf m
  · rw [keysOf_bump_mem m k hk]; exact h
  · rw [keysOf_bump_not_mem m k hk]
    simp [List.nodup_append, h, hk]

theorem nodup_keysOf_tally (objs : List JValue) :
    ∀ m, (keysOf m).Nodup → (keysOf (tally m objs)).Nodup := by
  induction objs with
  | nil => exact fun _ h => h
  | cons j rest ih =>
      intro m h
      cases j
      case obj fs => exact ih _ (nodup_keysOf_bump _ _ h)
      all_goals exact ih _ h

theorem nodup_keysOf_classCounts (objs : List JValue) :
    (keysOf (classCounts objs)).Nodup :=
  nodup_keysOf_tally objs [] (by simp [keysOf])

theorem keysOf_eq_map (m : List (JValue × Nat)) :
    keysOf m = m.map (fun kv => kv.1) := by
  induction m with
  | nil => rfl
  | cons kv rest ih => obtain ⟨k, n⟩ := kv; simp [keysOf, ih]

theorem lexLe_total (l1 l2 : List Char) :
    lexLe l1 l2 = true ∨ lexLe l2 l1 = true := by
  induction l1 generalizing l2 with
  | nil => left; rfl
  | cons a as ih =>
      cases l2 with
      | nil => right; rfl
      | cons b bs =>
          by_cases h : a.toNat = b.toNat
          · rcases ih bs with h1 | h1
            · left; simpa [lexLe, h] using h1
            · right; simpa [lexLe, h.symm] using h1
          · rcases Nat.lt_or_ge a.toNat b.toNat with h1 | h1
            · left; simp [lexLe, h, h1]
            · right
              have h2 : b.toNat < a.toNat := lt_of_le_of_ne h1 (Ne.symm h)
              simp [lexLe, Ne.symm h, h2]

theorem lexLe_trans (l1 l2 l3 : List Char) (h12 : lexLe l1 l2 = true)
    (h23 : lexLe l2 l3 = true) : lexLe l1 l3 = true := by
  induction l1 generalizing l2 l3 with
  | nil => rfl
  | cons a as ih =>
      cases l2 with
      | nil => simp [lexLe] at h12
      | cons b bs =>
          cases l3 with
          | nil => simp [lexLe] at h23
          | cons c cs =>
              by_cases hab : a.toNat = b.toNat <;>
                by_cases hbc : b.toNat = c.toNat
              · simp only [lexLe, hab, hbc] at h12 h23 ⊢
                simp only [if_pos rfl] at *
                exact ih bs cs h12 h23
              · simp only [lexLe, if_pos hab, if_neg hbc] at h23
                have : a.toNat ≠ c.toNat := by
                  simp only [decide_eq_true_eq] at h23
                  omega
                simp only [lexLe, if_neg this, decide_eq_true_eq]
                simp only [decide_eq_true_eq] at h23
                omega
              · simp only [lexLe, if_neg hab] at h12
                simp only [decide_eq_true_eq] at h12
                have : a.toNat ≠ c.toNat := by omega
                simp only [lexLe, if_neg this, decide_eq_true_eq]
                omega
              · simp only [lexLe, if_neg hab, if_neg hbc,
                  decide_eq_true_eq] at h12 h23
                have : a.toNat ≠ c.toNat := by omega
                simp only [lexLe, if_neg this, decide_eq_true_eq]
                omega

instance : IsTotal String strLe :=
  ⟨fun a b => lexLe_total a.toList b.toList⟩

instance : IsTrans String strLe :=
  ⟨fun a b c => lexLe_trans a.toList b.toList c.toList⟩

theorem detectedIngredients_sorted_nodup (m : List (JValue × Nat))
    (l : List String) (hnd : (keysOf m).Nodup)
    (h : detectedIngredients m = some l) :
    l.Sorted strLe ∧ l.Nodup := by
  unfold detectedIngredients at h
  split at h
  case isTrue hall =>
    injection h with h
    subst h
    refine ⟨List.sorted_insertionSort _ _, ?_⟩
    have hperm :=
      List.perm_insertionSort (α := String) strLe
        (m.map (fun kv => keyStr kv.1))
    have hstr : ∀ x ∈ keysOf m, ∃ s, x = JValue.str s := by
      intro x hx
      rw [keysOf_eq_map] at hx
      obtain ⟨kv, hkv, rfl⟩ := List.mem_map.mp hx
      have := List.all_eq_true.mp hall kv hkv
      cases hkv1 : kv.1 <;> simp [isStrKey, hkv1] at this ⊢
    have hmap : (m.map (fun kv => keyStr kv.1)).Nodup := by
      have he : m.map (fun kv => keyStr kv.1) = (keysOf m).map keyStr := by
        rw [keysOf_eq_map, List.map_map]
        rfl
      rw [he]
      refine List.Nodup.map_on ?_ hnd
      intro x hx y hy hxy
      obtain ⟨a, rfl⟩ := hstr x hx
      obtain ⟨b, rfl⟩ := hstr y hy
      simpa [keyStr] using hxy
    exact hperm.nodup_iff.mpr hmap
  case isFalse => exact absurd h (by simp)

/-! # Response payload facts shared by several claims -/

theorem detect_image_result_eq (cfg : Config) (req : DetectRequest) (w : World) :
    (detect_image cfg req w).result =
      legacyResult ((detect_image cfg req w).details) := by
  unfold detect_image parseStage
  repeat' split
  all_goals simp [errResponse, legacyResult, sumCounts]

theorem detect_image_ingredients_eq (cfg : Config) (req : DetectRequest) (w : World) :
    (detect_image cfg req w).ingredients =
      sumCounts ((detect_image cfg req w).details) := by
  unfold detect_image parseStage
  repeat' split
  all_goals simp [errResponse, sumCounts]

theorem legacyResult_cases (m : List (JValue × Nat)) :
    ((∃ s, legacyResult m = LegacyResult.str s) ↔ m.length = 1) ∧
    (∀ k n, m = [(k, n)] →
      legacyResult m = LegacyResult.str (toString n ++ " " ++ pyStr k)) ∧
    (m.length ≠ 1 → legacyResult m = LegacyResult.obj (sumCounts m) m) := by
  match m with
  | [] => simp [legacyResult]
  | [(k, n)] => simp [legacyResult]
  | (a :: b :: rest) => simp [legacyResult]

/-! # The claims -/

/-- C1: in every successful detection response, the legacy `result` field
is a string exactly when one distinct class was counted, in which case it
is `"{count} {class}"` built from the single details entry; otherwise it
is the structured object built from the response's own `ingredients` total
and `details` list (in particular with zero distinct classes). -/
theorem C1_legacy_result_shape (cfg : Config) (req : DetectRequest) (w : World)
    (h200 : (detect_image cfg req w).status = 200) :
    ((∃ s, (detect_image cfg req w).result = LegacyResult.str s) ↔
      (detect_image cfg req w).details.length = 1) ∧
    (∀ k n, (detect_image cfg req w).details = [(k, n)] →
      (detect_image cfg req w).result =
        LegacyResult.str (toString n ++ " " ++ pyStr k)) ∧
    ((detect_image cfg req w).details.length ≠ 1 →
      (detect_image cfg req w).result =
        LegacyResult.obj (detect_image cfg req w).ingredients
          (detect_image cfg req w).details) := by
  rw [detect_image_result_eq, detect_image_ingredients_eq]
  exact legacyResult_cases _

theorem C1_legacy_result_shape_witness :
    (detect_image ⟨some "key"⟩ ⟨true, "a.png", none, [7]⟩
        ⟨true, true,
          some (JObj.ofList [("outputs", jarr [jobj [("predictions",
            jarr [jobj [("class", JValue.str "egg")]])]])]),
          fun _ => none, true⟩).status = 200 ∧
    (detect_image ⟨some "key"⟩ ⟨true, "a.png", none, [7]⟩
        ⟨true, true,
          some (JObj.ofList [("outputs", jarr [jobj [("predictions",
            jarr [jobj [("class", JValue.str "egg")]])]])]),
          fun _ => none, true⟩).result = LegacyResult.str "1 egg" := by
  refine ⟨by decide, ?_⟩
  exact (C1_legacy_result_shape _ _ _ (by decide)).2.1 (JValue.str "egg") 1
    (by decide)

/-- C2, counterexample: for the single prediction record `{}` (an object
with no `class` field) the details sum and the total are 1, but the number
of records with a defined `class` field is 0, so the claimed chain
`sum(details.count) == total == len(predictions with a class)` fails. -/
theorem C2_counterexample :
    sumCounts (classCounts [jobj []]) = 1 ∧
    spec_numDefinedClass [jobj []] = 0 ∧
    sumCounts (classCounts [jobj []]) ≠ spec_numDefinedClass [jobj []] := by
  refine ⟨by decide, by decide, by decide⟩

/-- C2, amended: for every predictions sequence, the details sum and the
total both equal the number of prediction records that are objects
(records without a `class` field are still counted, under `"Unknown"`;
non-object records are skipped). -/
theorem C2_total_counts_object_records (objs : List JValue) :
    sumCounts (classCounts objs) = objs.countP isObjRecord := by
  have h := sumCounts_tally objs []
  simpa [classCounts, sumCounts] using h

theorem countP_keyMatches_unknown (objs : List JValue) :
    objs.countP (keyMatches (JValue.str "Unknown")) =
      objs.countP (fun j =>
        match j with
        | JValue.obj fs => (jGet fs "class").isNone
        | _ => false) +
      objs.countP (fun j =>
        match j with
        | JValue.obj fs => jGet fs "class" == some (JValue.str "Unknown")
        | _ => false) := by
  induction objs with
  | nil => simp
  | cons j rest ih =>
      cases j
      case obj fs =>
        cases hc : jGet fs "class" with
        | none =>
            simp [List.countP_cons, keyMatches, classKey, jGetD, hc, ih]
            omega
        | some v =>
            by_cases hv : v = JValue.str "Unknown" <;>
              simp [List.countP_cons, keyMatches, classKey, jGetD, hc, hv, ih] <;>
              omega
      all_goals simp [List.countP_cons, keyMatches, ih]

/-- C6: for every predictions sequence, the tally entry for the sentinel
label `"Unknown"` counts exactly the object records that lack a `class`
field plus the object records whose `class` is literally `"Unknown"` —
records without the field are attributed to the sentinel and counted, not
dropped. -/
theorem C6_unknown_records_counted (objs : List JValue) :
    lookupCount (classCounts objs) (JValue.str "Unknown") =
      objs.countP (fun j =>
        match j with
        | JValue.obj fs => (jGet fs "class").isNone
        | _ => false) +
      objs.countP (fun j =>
        match j with
        | JValue.obj fs => jGet fs "class" == some (JValue.str "Unknown")
        | _ => false) := by
  have h := lookupCount_tally objs (JValue.str "Unknown") []
  simp only [classCounts]
  rw [h]
  simp [lookupCount, countP_keyMatches_unknown]

/-- C9: whenever the `detected_ingredients` list is produced from the
class tally, it is sorted lexicographically ascending (code-point order,
`strLe`) and contains no duplicate labels. -/
theorem C9_detected_sorted_nodup (objs : List JValue) (l : List String)
    (h : detectedIngredients (classCounts objs) = some l) :
    l.Sorted strLe ∧ l.Nodup :=
  detectedIngredients_sorted_nodup _ _ (nodup_keysOf_classCounts objs) h

theorem C9_detected_sorted_nodup_witness :
    detectedIngredients (classCounts
        [jobj [("class", JValue.str "banana")], jobj [("class", JValue.str "apple")],
         jobj [("class", JValue.str "banana")]]) = some ["apple", "banana"] ∧
    ((["apple", "banana"] : List String).Sorted strLe ∧
      (["apple", "banana"] : List String).Nodup) :=
  ⟨by decide,
    C9_detected_sorted_nodup
      [jobj [("class", JValue.str "banana")], jobj [("class", JValue.str "apple")],
       jobj [("class", JValue.str "banana")]]
      ["apple", "banana"] (by decide)⟩

/-- C3: over the documented upstream shape variants, the
response-normalization step never raises, and it reports the
malformed-response error exactly when the top-level `outputs` field is
absent, not a list, or an empty list — in which case the handler answers
502 and writes no processed image file. -/
theorem C3_normalizer_total (rf : JObj) (hdoc : documentedShape rf = true) :
    normalizeResponse rf ≠ NormResult.raised ∧
    (normalizeResponse rf = NormResult.malformed ↔ spec_outputsBad rf = true) ∧
    (∀ cfg req w,
      req.hasImageFile = true → keyMissing cfg = false → req.filename ≠ "" →
      allowed_file req.filename = true → w.readOk = true → w.tempWriteOk = true →
      w.upstream = some rf → spec_outputsBad rf = true →
      (detect_image cfg req w).status = 502 ∧
      (detect_image cfg req w).error = some ErrKind.outputsMissing ∧
      (detect_image cfg req w).processedWritten = none) := by
  have hchar : normalizeResponse rf ≠ NormResult.raised ∧
      (normalizeResponse rf = NormResult.malformed ↔ spec_outputsBad rf = true) := by
    cases hout : jGet rf "outputs" with
    | none =>
        simp [normalizeResponse, jGetD, hout, jarr, JArr.ofList, truthy,
          JValue.isArr, spec_outputsBad]
    | some v =>
        cases v
        case arr xs =>
          cases xs with
          | nil =>
              simp [normalizeResponse, jGetD, hout, truthy, JValue.isArr,
                spec_outputsBad]
          | cons first rest =>
              cases first
              case obj ffs =>
                simp [normalizeResponse, jGetD, hout, truthy, JValue.isArr,
                  spec_outputsBad]
              all_goals
                simp [documentedShape, spec_outputsBad, hout] at hdoc
        all_goals
          simp [normalizeResponse, jGetD, hout, truthy, JValue.isArr,
            spec_outputsBad]
  refine ⟨hchar.1, hchar.2, ?_⟩
  intro cfg req w h1 h2 h3 h4 h5 h6 hup hbad
  have hmal : normalizeResponse rf = NormResult.malformed := hchar.2.mpr hbad
  simp [detect_image, parseStage, h1, h2, h3, h4, h5, h6, hup, hmal, errResponse]

theorem C3_normalizer_total_witness :
    documentedShape JObj.nil = true ∧
    normalizeResponse JObj.nil = NormResult.malformed ∧
    (detect_image ⟨some "key"⟩ ⟨true, "a.png", none, [7]⟩
        ⟨true, true, some JObj.nil, fun _ => none, true⟩).status = 502 ∧
    (detect_image ⟨some "key"⟩ ⟨true, "a.png", none, [7]⟩
        ⟨true, true, some JObj.nil, fun _ => none, true⟩).processedWritten = none := by
  have h := C3_normalizer_total JObj.nil (by decide)
  refine ⟨by decide, h.2.1.mpr (by decide), ?_, ?_⟩
  · exact (h.2.2 ⟨some "key"⟩ ⟨true, "a.png", none, [7]⟩
      ⟨true, true, some JObj.nil, fun _ => none, true⟩
      rfl (by decide) (by decide) (by decide) rfl rfl rfl (by decide)).1
  · exact (h.2.2 ⟨some "key"⟩ ⟨true, "a.png", none, [7]⟩
      ⟨true, true, some JObj.nil, fun _ => none, true⟩
      rfl (by decide) (by decide) (by decide) rfl rfl rfl (by decide)).2.2

/-- C4, counterexample: a request with an attached file whose filename is
empty, sent while the API key is unset, is answered 500 (misconfigured),
not 400 — the claimed "all three upload checks before the key check" order
does not hold. -/
theorem C4_counterexample :
    (detect_image ⟨none⟩ ⟨true, "", none, []⟩
        ⟨true, true, none, fun _ => none, true⟩).status = 500 ∧
    (detect_image ⟨none⟩ ⟨true, "", none, []⟩
        ⟨true, true, none, fun _ => none, true⟩).error =
      some ErrKind.misconfigured := by
  exact ⟨by decide, by decide⟩

/-- C4, amended: the attachment check runs first; the API-key
configuration check runs second, before the empty-filename and extension
checks; the empty-filename check (400) and the case-insensitive extension
check (400) follow, in that order. -/
theorem C4_validation_order (cfg : Config) (req : DetectRequest) (w : World) :
    (req.hasImageFile = false →
      detect_image cfg req w =
        errResponse 400 ErrKind.noImageFile false false false) ∧
    (req.hasImageFile = true → keyMissing cfg = true →
      detect_image cfg req w =
        errResponse 500 ErrKind.misconfigured false false false) ∧
    (req.hasImageFile = true → keyMissing cfg = false → req.filename = "" →
      detect_image cfg req w =
        errResponse 400 ErrKind.emptyFilename false false false) ∧
    (req.hasImageFile = true → keyMissing cfg = false → req.filename ≠ "" →
      allowed_file req.filename = false →
      detect_image cfg req w =
        errResponse 400 ErrKind.unsupportedFormat false false false) := by
  refine ⟨?_, ?_, ?_, ?_⟩
  · intro h1
    simp [detect_image, h1]
  · intro h1 h2
    simp [detect_image, h1, h2]
  · intro h1 h2 h3
    simp [detect_image, h1, h2, h3]
  · intro h1 h2 h3 h4
    simp [detect_image, h1, h2, h3, h4]

theorem C4_validation_order_witness :
    detect_image ⟨some "key"⟩ ⟨true, "", none, []⟩
        ⟨true, true, none, fun _ => none, true⟩ =
      errResponse 400 ErrKind.emptyFilename false false false :=
  (C4_validation_order _ _ _).2.2.1 (by decide) (by decide) (by decide)

/-- C5, counterexample: with the API key unset, a request with no
attached file is answered 400 (missing input), not 500 — the
misconfiguration error is not returned for every request. -/
theorem C5_counterexample :
    keyMissing ⟨none⟩ = true ∧
    (detect_image ⟨none⟩ ⟨false, "a.png", none, []⟩
        ⟨true, true, none, fun _ => none, true⟩).status = 400 ∧
    (detect_image ⟨none⟩ ⟨false, "a.png", none, []⟩
        ⟨true, true, none, fun _ => none, true⟩).status ≠ 500 := by
  exact ⟨by decide, by decide, by decide⟩

/-- C5, amended: when the API key is unset, empty, or the placeholder
default, no request ever reaches the upstream call, and every request
that has an attached image file is answered 500 with the
misconfiguration error. -/
theorem C5_misconfigured_fail_fast (cfg : Config) (req : DetectRequest)
    (w : World) (hk : keyMissing cfg = true) :
    (detect_image cfg req w).calledUpstream = false ∧
    (req.hasImageFile = true →
      detect_image cfg req w =
        errResponse 500 ErrKind.misconfigured false false false) := by
  by_cases h : req.hasImageFile = true
  · constructor
    · simp [detect_image, h, hk, errResponse]
    · intro _
      simp [detect_image, h, hk]
  · have h' : req.hasImageFile = false := by
      cases hh : req.hasImageFile
      · rfl
      · exact absurd hh h
    constructor
    · simp [detect_image, h', errResponse]
    · intro h2
      exact absurd h2 h

theorem C5_misconfigured_fail_fast_witness :
    keyMissing ⟨some ""⟩ = true ∧
    (detect_image ⟨some ""⟩ ⟨true, "x.jpg", none, []⟩
        ⟨true, true, none, fun _ => none, true⟩).calledUpstream = false ∧
    detect_image ⟨some ""⟩ ⟨true, "x.jpg", none, []⟩
        ⟨true, true, none, fun _ => none, true⟩ =
      errResponse 500 ErrKind.misconfigured false false false := by
  have h := C5_misconfigured_fail_fast ⟨some ""⟩ ⟨true, "x.jpg", none, []⟩
    ⟨true, true, none, fun _ => none, true⟩ (by decide)
  exact ⟨by decide, h.1, h.2 (by decide)⟩

theorem error_processedWriteFailed_500 (cfg : Config) (req : DetectRequest)
    (w : World) :
    (detect_image cfg req w).error = some ErrKind.processedWriteFailed →
    (detect_image cfg req w).status = 500 := by
  unfold detect_image parseStage
  repeat' split
  all_goals intro h
  all_goals simp_all [errResponse]

/-- C7: when the annotated-image field is absent (`None`), an
empty/whitespace string, or a string the base64 decoder rejects, the
persistence step writes the original upload bytes unchanged and never
raises; the only error the persistence step can produce is a failure of
the file write itself, which the handler reports as HTTP 500. -/
theorem C7_persist_fallback (img : JValue) (decode : String → Option Bytes)
    (orig : Bytes) (writeOk : Bool)
    (h : img = JValue.null ∨ (∃ s, img = JValue.str s ∧ pyStrip s = "") ∨
         (∃ s, img = JValue.str s ∧ decode s = none)) :
    toWrite img decode orig = some orig ∧
    persistStep img decode orig writeOk ≠ PersistOutcome.raised ∧
    (writeOk = true →
      persistStep img decode orig writeOk = PersistOutcome.wrote orig) ∧
    (writeOk = false →
      persistStep img decode orig writeOk = PersistOutcome.writeError) ∧
    (∀ cfg req w, (detect_image cfg req w).error =
        some ErrKind.processedWriteFailed →
      (detect_image cfg req w).status = 500) := by
  have hw : toWrite img decode orig = some orig := by
    rcases h with rfl | ⟨s, rfl, hs⟩ | ⟨s, rfl, hs⟩
    · simp [toWrite, truthy]
    · simp [toWrite, hs]
    · by_cases ht : pyStrip s = "" <;> simp [toWrite, ht, hs]
  refine ⟨hw, ?_, ?_, ?_, error_processedWriteFailed_500⟩
  · cases writeOk <;> simp [persistStep, hw]
  · intro hW; simp [persistStep, hw, hW]
  · intro hW; simp [persistStep, hw, hW]

theorem C7_persist_fallback_witness :
    toWrite JValue.null (fun _ => none) [3, 1, 4] = some [3, 1, 4] ∧
    persistStep JValue.null (fun _ => none) [3, 1, 4] true =
      PersistOutcome.wrote [3, 1, 4] ∧
    persistStep JValue.null (fun _ => none) [3, 1, 4] false =
      PersistOutcome.writeError := by
  have h := C7_persist_fallback JValue.null (fun _ => none) [3, 1, 4] true
    (Or.inl rfl)
  have h' := C7_persist_fallback JValue.null (fun _ => none) [3, 1, 4] false
    (Or.inl rfl)
  exact ⟨h.1, h.2.2.1 rfl, h'.2.2.2.1 rfl⟩

/-- C8: every handler run that reaches the upstream call created the
transient upload file and removed it, on all exit paths of the call —
upstream raising, upstream returning a malformed payload, and upstream
success (the `finally` at line 124 runs in each case). -/
theorem C8_temp_file_removed (cfg : Config) (req : DetectRequest) (w : World) :
    (detect_image cfg req w).calledUpstream = true →
    (detect_image cfg req w).tempCreated = true ∧
    (detect_image cfg req w).tempRemoved = true := by
  unfold detect_image parseStage
  repeat' split
  all_goals intro h
  all_goals simp_all [errResponse]

theorem C8_temp_file_removed_witness :
    (detect_image ⟨some "key"⟩ ⟨true, "a.png", none, [7]⟩
        ⟨true, true, none, fun _ => none, true⟩).calledUpstream = true ∧
    ((detect_image ⟨some "key"⟩ ⟨true, "a.png", none, [7]⟩
        ⟨true, true, none, fun _ => none, true⟩).tempCreated = true ∧
     (detect_image ⟨some "key"⟩ ⟨true, "a.png", none, [7]⟩
        ⟨true, true, none, fun _ => none, true⟩).tempRemoved = true) :=
  ⟨by decide, C8_temp_file_removed _ _ _ (by decide)⟩

/-- C10: a successful response carries the `processed_image_base64` key
exactly when the lowercased `include_base64` query parameter (defaulted
to `"true"` when absent) is not the string `"false"`; and the key's value
can be `null` when the upstream response carried no annotated image. -/
theorem C10_b64_key_presence :
    (∀ cfg req w, (detect_image cfg req w).status = 200 →
      ((detect_image cfg req w).b64Field.isSome = true ↔
        pyLower (req.includeB64Param.getD "true") ≠ "false")) ∧
    (∃ cfg req w, (detect_image cfg req w).status = 200 ∧
      (detect_image cfg req w).b64Field = some JValue.null) := by
  constructor
  · intro cfg req w
    unfold detect_image parseStage
    repeat' split
    all_goals intro h
    all_goals simp_all [errResponse, includeB64]
  · exact ⟨⟨some "key"⟩, ⟨true, "a.png", none, [7]⟩,
      ⟨true, true, some (JObj.ofList [("outputs", jarr [jobj []])]),
        fun _ => none, true⟩, by decide, by decide⟩

theorem C10_b64_key_presence_witness :
    (detect_image ⟨some "key"⟩ ⟨true, "a.png", some "False", [7]⟩
        ⟨true, true, some (JObj.ofList [("outputs", jarr [jobj []])]),
          fun _ => none, true⟩).status = 200 ∧
    ((detect_image ⟨some "key"⟩ ⟨true, "a.png", some "False", [7]⟩
        ⟨true, true, some (JObj.ofList [("outputs", jarr [jobj []])]),
          fun _ => none, true⟩).b64Field.isSome = true ↔
      pyLower ((some "False" : Option String).getD "true") ≠ "false") :=
  ⟨by decide, C10_b64_key_presence.1 _ _ _ (by decide)⟩
